import Mathlib

/-!
Shallow embedding of the gorilla/sessions session-store core: the Session
data model, CookieStore and FilesystemStore (store.go), the Matcher
mechanism (matcher.go), and the request-scoped Registry.  The securecookie
codec chain, HTTP request cookie parsing and raw file I/O are external
collaborators and are modelled as explicit parameters / state.
-/

set_option maxRecDepth 4096

/-- Modelled from the spec: the per-store cookie `Options` (options.go is not
part of the provided sources; fields are those listed in spec section 3 and
exercised by the cookie tests): path, domain, max-age, secure, http-only,
same-site.  Go `int` max-age is modelled as `Int`. -/
structure Options where
  Path : String
  Domain : String
  MaxAge : Int
  Secure : Bool
  HttpOnly : Bool
  SameSite : Nat
deriving Repr, DecidableEq, Inhabited

/-- The `Session` entity (sessions.go, spec section 3).  `Values` is Go's
`map[interface{}]interface{}`; it is modelled as an association list of
string pairs wrapped in `Option` so that a Go `nil` map (`none`) is
distinguishable from a non-nil empty map (`some []`).  The `store`
back-reference is routing-only and is omitted. -/
structure Session where
  ID : String
  Values : Option (List (String × String))
  Options : Options
  IsNew : Bool
  name : String
deriving Repr, DecidableEq

/-- A cookie as it appears in a request's Cookie header: a name/value pair. -/
structure Cookie where
  name : String
  value : String
deriving Repr, DecidableEq

/-- An HTTP request, reduced to the part the store code reads: the list of
cookies in header order. -/
structure Request where
  cookies : List Cookie
deriving Repr, DecidableEq

/-- Go `r.Cookie(name)`: the first cookie carrying `name`, in header order. -/
def Request.cookie (r : Request) (name : String) : Option Cookie :=
  r.cookies.find? (fun c => c.name == name)

/-- Embeds `Matcher` (matcher.go lines 3-5): a predicate over a fully decoded
session, used to identify the correct cookie among several sharing a name. -/
abbrev Matcher := Session → Bool

/-- Embeds `FirstMatcher` (matcher.go lines 7-10): accepts every candidate. -/
def FirstMatcher : Matcher := fun _ => true

/-- The securecookie codec chain, an external collaborator (spec section 1
treats it as an opaque capability).  `EncodeMulti`/`DecodeMulti` against
`session.Values` and against `session.ID` are the four operations the store
code uses; errors are strings. -/
structure CodecModel where
  encodeVals : String → Option (List (String × String)) → Except String String
  decodeVals : String → String → Except String (List (String × String))
  encodeID : String → String → Except String String
  decodeID : String → String → Except String String

/-- Modelled from the spec: `NewSession` (sessions.go, not in the provided
sources) builds a session with the given name, an empty but non-nil values
map, an empty id and zeroed options (spec section 3: values is never nil
after New/Get). -/
def NewSession (name : String) : Session :=
  { ID := "", Values := some [], Options := default, IsNew := false, name := name }

/-- The session-creation prologue shared by CookieStore.New / NewExact and
FilesystemStore.NewExact (store.go lines 121-124, 145-148, 277-280):
a fresh session whose options are a copy of the store's defaults and whose
IsNew flag is set. -/
def freshSessionWith (o : Options) (name : String) : Session :=
  { NewSession name with Options := o, IsNew := true }

/-- A Set-Cookie record on the response.  Attributes are taken verbatim from
the session's Options (spec section 6). -/
structure CookieRec where
  name : String
  value : String
  Path : String
  Domain : String
  MaxAge : Int
  Secure : Bool
  HttpOnly : Bool
  SameSite : Nat
deriving Repr, DecidableEq

/-- Modelled from the spec: `NewCookie` (sessions.go, not in the provided
sources) produces an http.Cookie for the response with the given name and
value and every attribute taken verbatim from the options snapshot
(spec section 6; a MaxAge of at most zero makes the cookie expire
immediately). -/
def NewCookie (name value : String) (o : Options) : CookieRec :=
  { name := name, value := value, Path := o.Path, Domain := o.Domain,
    MaxAge := o.MaxAge, Secure := o.Secure, HttpOnly := o.HttpOnly,
    SameSite := o.SameSite }

/-- Go `http.SetCookie`: appends one Set-Cookie header to the response. -/
def setCookie (w : List CookieRec) (c : CookieRec) : List CookieRec :=
  w ++ [c]

/-- Embeds `CookieStore` (store.go lines 88-92): a codec chain plus default
options. -/
structure CookieStore where
  Codecs : CodecModel
  Options : Options

/-- Embeds `NewCookieStore` (store.go lines 75-86) minus the codec-internal MaxAge
propagation (the codec is opaque): default Path "/" and MaxAge 86400*30. -/
def NewCookieStore (codecs : CodecModel) : CookieStore :=
  { Codecs := codecs,
    Options := { Path := "/", Domain := "", MaxAge := 86400 * 30,
                 Secure := false, HttpOnly := false, SameSite := 0 } }

/-- Embeds `CookieStore.New` (store.go lines 120-134): fresh session with a copy of
the store options; if a cookie named `name` is present, decode it into the
values; on success IsNew becomes false, on failure the error is returned
alongside the fresh session. -/
def CookieStore.New (s : CookieStore) (r : Request) (name : String) :
    Session × Option String :=
  match r.cookie name with
  | none => (freshSessionWith s.Options name, none)
  | some c =>
    match s.Codecs.decodeVals name c.value with
    | Except.error e => (freshSessionWith s.Options name, some e)
    | Except.ok vs =>
      ({ freshSessionWith s.Options name with Values := some vs, IsNew := false }, none)

/-- The candidate loop of `CookieStore.NewExact` (store.go lines 150-164):
walk the cookies in header order, skip other names, decode each candidate;
a decoded candidate accepted by the matcher ends the loop with IsNew false;
a rejected one has the values reset to a fresh empty map before the next
candidate; the running `err` holds the last decode result. -/
def cookieNewExactLoop (codec : CodecModel) (name : String) (matcher : Matcher) :
    List Cookie → Session → Option String → Session × Option String
  | [], session, err => (session, err)
  | c :: rest, session, err =>
    if c.name ≠ name then
      cookieNewExactLoop codec name matcher rest session err
    else
      match codec.decodeVals name c.value with
      | Except.error e => cookieNewExactLoop codec name matcher rest session (some e)
      | Except.ok vs =>
        if matcher { session with Values := some vs } then
          ({ session with Values := some vs, IsNew := false }, none)
        else
          cookieNewExactLoop codec name matcher rest { session with Values := some [] } none

/-- Embeds `CookieStore.NewExact` (store.go lines 144-167). -/
def CookieStore.NewExact (s : CookieStore) (r : Request) (name : String)
    (matcher : Matcher) : Session × Option String :=
  cookieNewExactLoop s.Codecs name matcher r.cookies (freshSessionWith s.Options name) none

/-- Embeds `CookieStore.Save` (store.go lines 170-179): encode the values; on
failure return the error with the response untouched; on success append the
Set-Cookie header built from the session's options snapshot. -/
def CookieStore.Save (s : CookieStore) (w : List CookieRec) (session : Session) :
    List CookieRec × Option String :=
  match s.Codecs.encodeVals session.name session.Values with
  | Except.error e => (w, some e)
  | Except.ok encoded =>
    (setCookie w (NewCookie session.name encoded session.Options), none)

/-- The session directory on disk, an external collaborator: a flat map from
file path to whole-file contents, modelled as an association list. -/
abbrev FS := List (String × String)

/-- Go `ioutil.WriteFile`: create or truncate, then write the whole file. -/
def writeFile (fs : FS) (path data : String) : FS :=
  (path, data) :: fs.filter (fun p => p.1 ≠ path)

/-- Go `ioutil.ReadFile`: the whole contents, or an error for a missing
file. -/
def readFile (fs : FS) (path : String) : Except String String :=
  match fs.lookup path with
  | some d => Except.ok d
  | none => Except.error ("open " ++ path ++ ": no such file or directory")

/-- Go `os.Remove`: drop the file, or an error when it does not exist. -/
def removeFile (fs : FS) (path : String) : Except String FS :=
  if (fs.lookup path).isSome then
    Except.ok (fs.filter (fun p => p.1 ≠ path))
  else
    Except.error ("remove " ++ path ++ ": no such file or directory")

/-- Go `filepath.Join(path, "session_" + id)` as used by save/load/erase. -/
def sessionFilename (path id : String) : String :=
  path ++ "/session_" ++ id

/-- The RFC 4648 standard base-32 alphabet. -/
def base32Alphabet : List Char :=
  "ABCDEFGHIJKLMNOPQRSTUVWXYZ234567".data

/-- The `k` low bits of `n`, most significant first. -/
def natBits (n k : Nat) : List Bool :=
  ((List.range k).reverse).map (fun i => n.testBit i)

/-- Split a bit string into 5-bit groups; the last group may be shorter. -/
def chunks5 : List Bool → List (List Bool)
  | [] => []
  | b :: rest => ((b :: rest).take 5) :: chunks5 (rest.drop 4)
termination_by l => l.length
decreasing_by simp [List.length_drop]; omega

/-- The value of a bit string, most significant bit first. -/
def bitsVal : List Bool → Nat
  | [] => 0
  | b :: rest => (if b then 1 else 0) * 2 ^ rest.length + bitsVal rest

/-- Embeds `base32.StdEncoding.WithPadding(base32.NoPadding)` (store.go line 302,
Go standard library): RFC 4648 base-32, short final group zero-padded on
the right, no padding characters emitted. -/
def base32RawStdEncoding (bytes : List Nat) : String :=
  let bits := (bytes.map (fun b => natBits b 8)).flatten
  String.mk ((chunks5 bits).map
    (fun c => base32Alphabet.getD (bitsVal c * 2 ^ (5 - c.length)) (Char.ofNat 65)))

/-- Embeds `FilesystemStore` (store.go lines 227-231): codec chain, default
options and the session directory path. -/
structure FilesystemStore where
  Codecs : CodecModel
  Options : Options
  path : String

/-- Embeds `NewFilesystemStore` (store.go lines 205-220) minus the codec-internal
MaxAge propagation; an empty path falls back to the temp directory. -/
def NewFilesystemStore (path : String) (codecs : CodecModel) : FilesystemStore :=
  { Codecs := codecs,
    Options := { Path := "/", Domain := "", MaxAge := 86400 * 30,
                 Secure := false, HttpOnly := false, SameSite := 0 },
    path := if path = "" then "/tmp" else path }

/-- Embeds `FilesystemStore.load` (store.go lines 367-380): read
`path/session_<id>` and decode the contents into the values. -/
def FilesystemStore.load (s : FilesystemStore) (fsSt : FS) (session : Session) :
    Except String Session :=
  match readFile fsSt (sessionFilename s.path session.ID) with
  | Except.error e => Except.error e
  | Except.ok fdata =>
    match s.Codecs.decodeVals session.name fdata with
    | Except.error e => Except.error e
    | Except.ok vs => Except.ok { session with Values := some vs }

/-- The candidate loop of `FilesystemStore.NewExact` (store.go lines
282-297): for every cookie carrying the name, reset the values, decode the
cookie value into the id, load the file, and on a matcher hit clear IsNew.
The loop body has no break, so iteration continues past a match. -/
def fsNewExactLoop (s : FilesystemStore) (fsSt : FS) (name : String) (matcher : Matcher) :
    List Cookie → Session → Option String → Session × Option String
  | [], session, err => (session, err)
  | c :: rest, session, err =>
    if c.name ≠ name then
      fsNewExactLoop s fsSt name matcher rest session err
    else
      match s.Codecs.decodeID name c.value with
      | Except.error e =>
        fsNewExactLoop s fsSt name matcher rest { session with Values := some [] } (some e)
      | Except.ok id =>
        match s.load fsSt { session with Values := some [], ID := id } with
        | Except.error e =>
          fsNewExactLoop s fsSt name matcher rest
            { session with Values := some [], ID := id } (some e)
        | Except.ok session2 =>
          if matcher session2 then
            fsNewExactLoop s fsSt name matcher rest { session2 with IsNew := false } none
          else
            fsNewExactLoop s fsSt name matcher rest session2 none

/-- Embeds `FilesystemStore.NewExact` (store.go lines 276-300). -/
def FilesystemStore.NewExact (s : FilesystemStore) (fsSt : FS) (r : Request)
    (name : String) (matcher : Matcher) : Session × Option String :=
  fsNewExactLoop s fsSt name matcher r.cookies (freshSessionWith s.Options name) none

/-- Embeds `FilesystemStore.New` (store.go lines 264-266): NewExact with
FirstMatcher. -/
def FilesystemStore.New (s : FilesystemStore) (fsSt : FS) (r : Request)
    (name : String) : Session × Option String :=
  s.NewExact fsSt r name FirstMatcher

/-- Embeds `FilesystemStore.save` (store.go lines 353-364): encode the values and
write them whole to `path/session_<id>`. -/
def FilesystemStore.save (s : FilesystemStore) (fsSt : FS) (session : Session) :
    Except String FS :=
  match s.Codecs.encodeVals session.name session.Values with
  | Except.error e => Except.error e
  | Except.ok encoded => Except.ok (writeFile fsSt (sessionFilename s.path session.ID) encoded)

/-- Embeds `FilesystemStore.erase` (store.go lines 382-391): remove the backing
file. -/
def FilesystemStore.erase (s : FilesystemStore) (fsSt : FS) (session : Session) :
    Except String FS :=
  removeFile fsSt (sessionFilename s.path session.ID)

/-- The persist-branch of `FilesystemStore.Save` (store.go lines 327-336),
run after the id has been fixed: write the file, then encode just the id
into the emitted cookie. -/
def FilesystemStore.savePersist (s : FilesystemStore) (fsSt : FS) (w : List CookieRec)
    (session : Session) : FS × List CookieRec × Option String :=
  match s.save fsSt session with
  | Except.error e => (fsSt, w, some e)
  | Except.ok fs2 =>
    match s.Codecs.encodeID session.name session.ID with
    | Except.error e => (fs2, w, some e)
    | Except.ok encoded =>
      (fs2, setCookie w (NewCookie session.name encoded session.Options), none)

/-- Embeds `FilesystemStore.Save` (store.go lines 310-337): when the session's
MaxAge is at most zero, erase the backing file and, if that succeeded, emit
an empty expiring cookie; otherwise generate a 32-random-byte base-32 id if
the id is empty, persist the values, and emit a cookie holding just the
encoded id.  `randKey` stands for `securecookie.GenerateRandomKey(32)`. -/
def FilesystemStore.Save (s : FilesystemStore) (fsSt : FS) (w : List CookieRec)
    (session : Session) (randKey : List Nat) : FS × List CookieRec × Option String :=
  if session.Options.MaxAge ≤ 0 then
    match s.erase fsSt session with
    | Except.error e => (fsSt, w, some e)
    | Except.ok fs2 =>
      (fs2, setCookie w (NewCookie session.name "" session.Options), none)
  else
    s.savePersist fsSt w
      (if session.ID = "" then { session with ID := base32RawStdEncoding randKey } else session)

/-- Modelled from the spec: the permitted cookie-name token set (the HTTP
token characters; sessions.go name validation is not in the provided
sources).  Alphanumerics plus the characters with codes
33 35 36 37 38 39 42 43 45 46 94 95 96 124 126. -/
def isTokenChar (c : Char) : Bool :=
  c.isAlphanum ||
    ([33, 35, 36, 37, 38, 39, 42, 43, 45, 46, 94, 95, 96, 124, 126].map Char.ofNat).contains c

/-- Modelled from the spec: `isCookieNameValid` (sessions.go, not in the
provided sources) — a cookie name is valid iff it is non-empty and every
character is in the permitted token set (spec section 6). -/
def isCookieNameValid (name : String) : Bool :=
  !name.data.isEmpty && name.data.all isTokenChar

/-- Modelled from the spec: the request-scoped `Registry` (sessions.go, not
in the provided sources; spec sections 3 and 4.1): a cache from (store
identity, session name) to the (session, creation error) pair, plus the
ordered save-list.  `newCalls` counts how many times the registry has gone
to a store to decode (a cache hit performs no decode). -/
structure Registry where
  request : Request
  sessions : List ((Nat × String) × (Session × Option String))
  saveList : List Session
  newCalls : Nat

/-- Modelled from the spec: `Registry.GetExact` (spec section 4.1).  The
store is represented by its identity `sid` and its `NewExact` entry point
`fn`.  An invalid name fails with the descriptive error before any decode;
a cache hit returns the memoized (session, error) pair unchanged; a miss
calls the store once, caches the result error or not, and appends the
session to the save-list. -/
def Registry.GetExact (reg : Registry) (sid : Nat)
    (fn : Request → String → Matcher → Session × Option String)
    (name : String) (matcher : Matcher) :
    (Option Session × Option String) × Registry :=
  if isCookieNameValid name = false then
    ((none, some ("sessions: invalid character in cookie name: " ++ name)), reg)
  else
    match reg.sessions.lookup (sid, name) with
    | some p => ((some p.1, p.2), reg)
    | none =>
      let p := fn reg.request name matcher
      ((some p.1, p.2),
       { reg with sessions := ((sid, name), p) :: reg.sessions,
                  saveList := reg.saveList ++ [p.1],
                  newCalls := reg.newCalls + 1 })

/-- Modelled from the spec: `Registry.Get` is `GetExact` with the
accept-first matcher (spec section 4.1). -/
def Registry.Get (reg : Registry) (sid : Nat)
    (fn : Request → String → Matcher → Session × Option String)
    (name : String) : (Option Session × Option String) × Registry :=
  Registry.GetExact reg sid fn name FirstMatcher

/-- A heap of `Options` cells, modelling Go pointers to Options: a cell is
addressed by its allocation index. -/
abbrev OptHeap := List Options

/-- Allocate a fresh Options cell holding `o`; the new reference is the old
heap length. -/
def allocOpt (h : OptHeap) (o : Options) : OptHeap × Nat :=
  (h ++ [o], h.length)

/-- Dereference an Options cell. -/
def readOpt (h : OptHeap) (r : Nat) : Options :=
  h.getD r default

/-- Overwrite an Options cell in place. -/
def writeOpt (h : OptHeap) (r : Nat) (o : Options) : OptHeap :=
  h.set r o

/-- The pointer-level reading of the options snapshot taken at session
creation (store.go lines 122-123, 146-147, 278-279: `opts := *s.Options;
session.Options = &opts`): dereference the store's Options cell and
allocate a fresh cell holding the copy; the session keeps the fresh
reference. -/
def sessionOptionsSnapshot (h : OptHeap) (storeRef : Nat) : OptHeap × Nat :=
  allocOpt h (readOpt h storeRef)

/-- An empty request, used as a concrete fixture. -/
def wReq : Request := { cookies := [] }

/-- A store entry point fixture: always a fresh session, no error. -/
def wFn : Request → String → Matcher → Session × Option String :=
  fun _ n _ => (NewSession n, none)

/-- An empty registry fixture. -/
def wReg : Registry :=
  { request := wReq, sessions := [], saveList := [], newCalls := 0 }

/-- Helper: a second `GetExact` on the registry produced by the first call
returns exactly the first call's (session, error) pair and leaves the
registry untouched. -/
theorem getExact_second_call (reg : Registry) (sid : Nat)
    (fn : Request → String → Matcher → Session × Option String)
    (name : String) (m : Matcher) :
    Registry.GetExact (Registry.GetExact reg sid fn name m).2 sid fn name m
      = Registry.GetExact reg sid fn name m := by
  by_cases hv : isCookieNameValid name = false
  · simp [Registry.GetExact, hv]
  · cases hl : reg.sessions.lookup (sid, name) with
    | some p => simp [Registry.GetExact, hv, hl]
    | none => simp [Registry.GetExact, hv, hl, List.lookup]

/-- C1: within one request, a repeated `Registry.Get` (and `Registry.GetExact`
with the same matcher) for the same (store, name) returns the identical
(session, error) pair as the first call — a memoized decode error included —
leaves the registry unchanged, and performs no second decode (the count of
store `NewExact` invocations does not grow). -/
theorem registry_get_idempotent (reg : Registry) (sid : Nat)
    (fn : Request → String → Matcher → Session × Option String)
    (name : String) (m : Matcher) :
    Registry.GetExact (Registry.GetExact reg sid fn name m).2 sid fn name m
      = Registry.GetExact reg sid fn name m
    ∧ Registry.Get (Registry.Get reg sid fn name).2 sid fn name
      = Registry.Get reg sid fn name
    ∧ ((Registry.GetExact (Registry.GetExact reg sid fn name m).2 sid fn name m).2).newCalls
      = ((Registry.GetExact reg sid fn name m).2).newCalls :=
  ⟨getExact_second_call reg sid fn name m,
   getExact_second_call reg sid fn name FirstMatcher,
   congrArg (fun x => x.2.newCalls) (getExact_second_call reg sid fn name m)⟩

/-- C8 (amended): a session name holding a character outside the permitted
cookie-name token set is rejected by the registry-mediated Get/GetExact —
the path store.Get takes — with the descriptive error, before any decode:
no session is returned and the registry (its cache, save-list and decode
count) is untouched.  Store-level New performs no such validation; see the
counterexample below. -/
theorem registry_rejects_invalid_name (reg : Registry) (sid : Nat)
    (fn : Request → String → Matcher → Session × Option String)
    (name : String) (m : Matcher)
    (h : ∃ c, c ∈ name.data ∧ isTokenChar c = false) :
    Registry.GetExact reg sid fn name m
        = ((none, some ("sessions: invalid character in cookie name: " ++ name)), reg)
      ∧ Registry.Get reg sid fn name
        = ((none, some ("sessions: invalid character in cookie name: " ++ name)), reg) := by
  obtain ⟨c, hc, hfc⟩ := h
  have hall : name.data.all isTokenChar = false := by
    cases hcase : name.data.all isTokenChar
    · rfl
    · have := (List.all_eq_true.mp hcase) c hc
      rw [hfc] at this
      exact absurd this (by simp)
  have hv : isCookieNameValid name = false := by
    unfold isCookieNameValid
    rw [hall]
    exact Bool.and_false _
  constructor <;> simp [Registry.GetExact, Registry.Get, hv]

/-- Witness for C8 at the test's concrete name "session:key". -/
theorem registry_rejects_invalid_name_witness :
    (∃ c, c ∈ "session:key".data ∧ isTokenChar c = false) ∧
    Registry.GetExact wReg 0 wFn "session:key" FirstMatcher
      = ((none, some ("sessions: invalid character in cookie name: " ++ "session:key")), wReg) :=
  ⟨⟨Char.ofNat 58, by decide, by decide⟩,
   (registry_rejects_invalid_name wReg 0 wFn "session:key" FirstMatcher
     ⟨Char.ofNat 58, by decide, by decide⟩).1⟩

/-- C6: the options snapshot taken when a session is created is a private
copy, not a shared reference — it equals the store's defaults at creation
time, and a later overwrite of the store's own Options cell leaves the
session's snapshot unchanged. -/
theorem session_options_snapshot_independent (h : OptHeap) (storeRef : Nat)
    (hlt : storeRef < h.length) (o2 : Options) :
    readOpt (sessionOptionsSnapshot h storeRef).1 (sessionOptionsSnapshot h storeRef).2
        = readOpt h storeRef
    ∧ readOpt (writeOpt (sessionOptionsSnapshot h storeRef).1 storeRef o2)
        (sessionOptionsSnapshot h storeRef).2 = readOpt h storeRef := by
  constructor
  · simp [sessionOptionsSnapshot, allocOpt, readOpt, List.getD_eq_getElem?_getD]
  · simp only [sessionOptionsSnapshot, allocOpt, readOpt, writeOpt]
    rw [List.getD_eq_getElem?_getD, List.getElem?_set_ne (by omega)]
    simp [List.getD_eq_getElem?_getD]

/-- Witness for C6: store defaults Path "/" in cell 0; after the store's
cell is overwritten with Path "/foo", the snapshot still reads Path "/". -/
theorem session_options_snapshot_independent_witness :
    (0 < ([{ Path := "/", Domain := "", MaxAge := 3600, Secure := false,
             HttpOnly := false, SameSite := 0 }] : OptHeap).length)
    ∧ readOpt
        (writeOpt (sessionOptionsSnapshot
          [{ Path := "/", Domain := "", MaxAge := 3600, Secure := false,
             HttpOnly := false, SameSite := 0 }] 0).1 0
          { Path := "/foo", Domain := "", MaxAge := 3600, Secure := false,
            HttpOnly := false, SameSite := 0 })
        (sessionOptionsSnapshot
          [{ Path := "/", Domain := "", MaxAge := 3600, Secure := false,
             HttpOnly := false, SameSite := 0 }] 0).2
      = readOpt
          [{ Path := "/", Domain := "", MaxAge := 3600, Secure := false,
             HttpOnly := false, SameSite := 0 }] 0 :=
  ⟨by decide,
   (session_options_snapshot_independent
     [{ Path := "/", Domain := "", MaxAge := 3600, Secure := false,
        HttpOnly := false, SameSite := 0 }] 0 (by decide)
     { Path := "/foo", Domain := "", MaxAge := 3600, Secure := false,
       HttpOnly := false, SameSite := 0 }).2⟩

/-- A concrete codec fixture: values decode to a singleton map tagging the
raw cookie value, the literal value "bad" fails to decode, ids decode to
the raw value, encoding always succeeds. -/
def testCodec : CodecModel :=
  { encodeVals := fun _ _ => Except.ok "payload",
    decodeVals := fun _ v =>
      if v = "bad" then Except.error "securecookie: the value is not valid"
      else Except.ok [("data", v)],
    encodeID := fun _ i => Except.ok i,
    decodeID := fun _ v =>
      if v = "bad" then Except.error "securecookie: the value is not valid"
      else Except.ok v }

/-- A cookie store over the test codec. -/
def testStore : CookieStore := NewCookieStore testCodec

/-- A request whose only cookie fails to decode. -/
def badReq : Request := { cookies := [{ name := "n", value := "bad" }] }

/-- A request whose only cookie decodes. -/
def goodReq : Request := { cookies := [{ name := "n", value := "good" }] }

/-- C3: when the cookie named `name` is present but fails to decode,
`CookieStore.New` returns the decode error together with a usable fresh
session — IsNew true, an empty non-nil values map, a copy of the store's
default options; when it decodes, IsNew is false and the error nil. -/
theorem cookieStore_new_decode_failure (s : CookieStore) (r : Request) (name : String)
    (c : Cookie) (hc : r.cookie name = some c) :
    (∀ e, s.Codecs.decodeVals name c.value = Except.error e →
       s.New r name = (freshSessionWith s.Options name, some e))
    ∧ (∀ vs, s.Codecs.decodeVals name c.value = Except.ok vs →
       (s.New r name).1.IsNew = false ∧ (s.New r name).2 = none)
    ∧ (freshSessionWith s.Options name).IsNew = true
    ∧ (freshSessionWith s.Options name).Values = some []
    ∧ (freshSessionWith s.Options name).Options = s.Options := by
  refine ⟨?_, ?_, rfl, rfl, rfl⟩
  · intro e he
    simp [CookieStore.New, hc, he]
  · intro vs hvs
    simp [CookieStore.New, hc, hvs]

/-- Witness for C3: the failing and the succeeding decode, both concrete. -/
theorem cookieStore_new_decode_failure_witness :
    (badReq.cookie "n" = some { name := "n", value := "bad" })
    ∧ testStore.New badReq "n"
        = (freshSessionWith testStore.Options "n", some "securecookie: the value is not valid")
    ∧ (goodReq.cookie "n" = some { name := "n", value := "good" })
    ∧ (testStore.New goodReq "n").1.IsNew = false
    ∧ (testStore.New goodReq "n").2 = none :=
  ⟨by decide,
   (cookieStore_new_decode_failure testStore badReq "n" { name := "n", value := "bad" }
     (by decide)).1 "securecookie: the value is not valid" rfl,
   by decide,
   ((cookieStore_new_decode_failure testStore goodReq "n" { name := "n", value := "good" }
     (by decide)).2.1 [("data", "good")] rfl).1,
   ((cookieStore_new_decode_failure testStore goodReq "n" { name := "n", value := "good" }
     (by decide)).2.1 [("data", "good")] rfl).2⟩

/-- Helper: resetting an already-empty values map is the identity on the
session record. -/
theorem session_values_reset_eta (sess : Session) (h : sess.Values = some []) :
    { sess with Values := some [] } = sess := by
  cases sess
  simp_all

/-- Helper: when every candidate sharing the name decodes and is rejected by
the matcher, the CookieStore candidate loop hands back its session (values
still empty) with a nil error. -/
theorem cookieNewExactLoop_all_rejected (codec : CodecModel) (name : String)
    (matcher : Matcher) :
    ∀ (cs : List Cookie) (sess : Session), sess.Values = some [] →
      (∀ c ∈ cs, c.name = name →
        ∃ vs, codec.decodeVals name c.value = Except.ok vs ∧
          matcher { sess with Values := some vs } = false) →
      cookieNewExactLoop codec name matcher cs sess none = (sess, none) := by
  intro cs
  induction cs with
  | nil => intro sess _ _; rfl
  | cons c rest ih =>
    intro sess hv hall
    by_cases hn : c.name = name
    · obtain ⟨vs, hd, hm⟩ := hall c (by simp) hn
      simp only [cookieNewExactLoop, hn, ne_eq, not_true_eq_false, if_false, hd, hm,
        Bool.false_eq_true, session_values_reset_eta sess hv]
      exact ih sess hv (fun x hx hxn => hall x (by simp [hx]) hxn)
    · simp only [cookieNewExactLoop, hn, ne_eq, not_false_eq_true, if_true]
      exact ih sess hv (fun x hx hxn => hall x (by simp [hx]) hxn)

/-- C10: when at least one cookie carries the requested name, every
candidate decodes, and the matcher rejects them all, `CookieStore.NewExact`
returns the fresh session — IsNew true, empty values, nil error — exactly
the result for a request with no cookies at all, so the caller cannot tell
the two situations apart. -/
theorem cookieStore_newExact_all_rejected (s : CookieStore) (r : Request) (name : String)
    (matcher : Matcher)
    (_hne : r.cookies.any (fun c => c.name == name) = true)
    (hall : ∀ c ∈ r.cookies, c.name = name →
       ∃ vs, s.Codecs.decodeVals name c.value = Except.ok vs ∧
         matcher { freshSessionWith s.Options name with Values := some vs } = false) :
    s.NewExact r name matcher = (freshSessionWith s.Options name, none)
    ∧ s.NewExact r name matcher = s.NewExact { cookies := [] } name matcher
    ∧ (freshSessionWith s.Options name).IsNew = true
    ∧ (freshSessionWith s.Options name).Values = some [] := by
  have h1 := cookieNewExactLoop_all_rejected s.Codecs name matcher r.cookies
    (freshSessionWith s.Options name) rfl hall
  exact ⟨h1, h1.trans rfl, rfl, rfl⟩

/-- The matcher that rejects every candidate, a concrete fixture. -/
def rejectAll : Matcher := fun _ => false

/-- Witness for C10: one decodable cookie, a matcher rejecting everything. -/
theorem cookieStore_newExact_all_rejected_witness :
    (goodReq.cookies.any (fun c => c.name == "n") = true)
    ∧ (∀ c ∈ goodReq.cookies, c.name = "n" →
        ∃ vs, testStore.Codecs.decodeVals "n" c.value = Except.ok vs ∧
          rejectAll { freshSessionWith testStore.Options "n" with Values := some vs } = false)
    ∧ testStore.NewExact goodReq "n" rejectAll
        = (freshSessionWith testStore.Options "n", none) := by
  have hall : ∀ c ∈ goodReq.cookies, c.name = "n" →
      ∃ vs, testStore.Codecs.decodeVals "n" c.value = Except.ok vs ∧
        rejectAll { freshSessionWith testStore.Options "n" with Values := some vs } = false := by
    intro c hc _
    simp only [goodReq, List.mem_singleton] at hc
    subst hc
    exact ⟨[("data", "good")], rfl, rfl⟩
  exact ⟨by decide, hall,
    (cookieStore_newExact_all_rejected testStore goodReq "n" rejectAll (by decide) hall).1⟩

/-- Helper: the CookieStore candidate loop passes over a list holding no
cookie of the requested name without touching session or error. -/
theorem cookieNewExactLoop_no_candidate (codec : CodecModel) (name : String)
    (matcher : Matcher) :
    ∀ (cs : List Cookie) (sess : Session) (err : Option String),
      (∀ c ∈ cs, c.name ≠ name) →
      cookieNewExactLoop codec name matcher cs sess err = (sess, err) := by
  intro cs
  induction cs with
  | nil => intro sess err _; rfl
  | cons c rest ih =>
    intro sess err h
    have hn : c.name ≠ name := h c (by simp)
    simp only [cookieNewExactLoop, hn, ne_eq, not_false_eq_true, if_true]
    exact ih sess err (fun x hx => h x (by simp [hx]))

/-- A request carrying two same-named cookies of which only the second
decodes, the concrete input separating New from NewExact-with-FirstMatcher
on a CookieStore. -/
def cexReq : Request :=
  { cookies := [{ name := "n", value := "bad" }, { name := "n", value := "good" }] }

/-- C5 counterexample: on a CookieStore, `New` is not `NewExact` with
`FirstMatcher` — with two cookies named "n" whose first fails to decode,
New returns the fresh session with the decode error while NewExact skips to
the second candidate and returns it with no error. -/
theorem cookieStore_new_vs_newExact_counterexample :
    CookieStore.New testStore cexReq "n"
      ≠ CookieStore.NewExact testStore cexReq "n" FirstMatcher := by
  decide

/-- C5 (amended): the registry-level `Get` is `GetExact` with the
accept-first matcher, and `FilesystemStore.New` is `NewExact` with
`FirstMatcher`; on a CookieStore the equivalence holds whenever the first
cookie carrying the name (if any) decodes successfully or is the only such
cookie — it can fail when the first of several same-named cookies fails to
decode. -/
theorem get_equiv_getExact_firstMatcher :
    (∀ (reg : Registry) (sid : Nat)
       (fn : Request → String → Matcher → Session × Option String) (name : String),
       Registry.Get reg sid fn name = Registry.GetExact reg sid fn name FirstMatcher)
    ∧ (∀ (s : FilesystemStore) (fsSt : FS) (r : Request) (name : String),
       s.New fsSt r name = s.NewExact fsSt r name FirstMatcher)
    ∧ (∀ (s : CookieStore) (r : Request) (name : String),
       (∀ c rest2, r.cookies.filter (fun x => x.name == name) = c :: rest2 →
          rest2 = [] ∨ ∃ vs, s.Codecs.decodeVals name c.value = Except.ok vs) →
       s.New r name = s.NewExact r name FirstMatcher) := by
  refine ⟨fun _ _ _ _ => rfl, fun _ _ _ _ => rfl, ?_⟩
  intro s r name
  obtain ⟨cs⟩ := r
  induction cs with
  | nil => intro _; rfl
  | cons c rest ih =>
    intro H
    by_cases hn : c.name = name
    · have hfind : Request.cookie ⟨c :: rest⟩ name = some c := by
        simp [Request.cookie, List.find?, hn]
      cases hd : s.Codecs.decodeVals name c.value with
      | ok vs =>
        simp [CookieStore.New, CookieStore.NewExact, hfind, hd,
          cookieNewExactLoop, hn, FirstMatcher]
      | error e =>
        have hfilter : (c :: rest).filter (fun x => x.name == name)
            = c :: rest.filter (fun x => x.name == name) := by
          simp [List.filter, hn]
        rcases H c (rest.filter (fun x => x.name == name)) hfilter with hrest | ⟨vs, hvs⟩
        · have hnone : ∀ x ∈ rest, x.name ≠ name := by
            intro x hx hxn
            have : x ∈ rest.filter (fun y => y.name == name) := by
              simp [List.mem_filter, hx, hxn]
            rw [hrest] at this
            exact absurd this (List.not_mem_nil x)
          have hloop := cookieNewExactLoop_no_candidate s.Codecs name FirstMatcher rest
            (freshSessionWith s.Options name) (some e) hnone
          simp [CookieStore.New, CookieStore.NewExact, hfind, hd,
            cookieNewExactLoop, hn, hloop]
        · rw [hvs] at hd
          exact absurd hd (by simp)
    · have hb : (c.name == name) = false := by simp [hn]
      have hnew : CookieStore.New s ⟨c :: rest⟩ name = CookieStore.New s ⟨rest⟩ name := by
        simp [CookieStore.New, Request.cookie, List.find?, hb]
      have hloop : CookieStore.NewExact s ⟨c :: rest⟩ name FirstMatcher
          = CookieStore.NewExact s ⟨rest⟩ name FirstMatcher := by
        simp [CookieStore.NewExact, cookieNewExactLoop, hn]
      rw [hnew, hloop]
      refine ih ?_
      intro c2 rest2 hf
      refine H c2 rest2 ?_
      rw [List.filter_cons_of_neg (by simp [hn])]
      exact hf

/-- Witness for C5 at a request whose single "n" cookie decodes. -/
theorem get_equiv_getExact_firstMatcher_witness :
    (∀ c rest2, goodReq.cookies.filter (fun x => x.name == "n") = c :: rest2 →
       rest2 = [] ∨ ∃ vs, testStore.Codecs.decodeVals "n" c.value = Except.ok vs)
    ∧ testStore.New goodReq "n" = testStore.NewExact goodReq "n" FirstMatcher := by
  have hH : ∀ c rest2, goodReq.cookies.filter (fun x => x.name == "n") = c :: rest2 →
      rest2 = [] ∨ ∃ vs, testStore.Codecs.decodeVals "n" c.value = Except.ok vs := by
    intro c rest2 hf
    have hf2 : ([{ name := "n", value := "good" }] : List Cookie) = c :: rest2 := by
      simpa [goodReq, List.filter] using hf
    exact Or.inl (List.cons.inj hf2.symm).2
  exact ⟨hH, get_equiv_getExact_firstMatcher.2.2 testStore goodReq "n" hH⟩

/-- A filesystem store over the test codec rooted at /tmp. -/
def fsStore : FilesystemStore := NewFilesystemStore "/tmp" testCodec

/-- Two session files on disk, ids "A" and "B". -/
def fsFiles : FS := [("/tmp/session_A", "alpha"), ("/tmp/session_B", "beta")]

/-- A request carrying two cookies named "n", ids "A" then "B" in header
order. -/
def fsReq : Request :=
  { cookies := [{ name := "n", value := "A" }, { name := "n", value := "B" }] }

/-- A matcher accepting exactly the session loaded from id "A" — the first
candidate in header order. -/
def matchA : Matcher := fun s => s.ID == "A"

/-- C2 (bug evidence): with two same-named cookies whose FIRST candidate the
matcher accepts (last conjunct: the session loaded for id "A" does satisfy
the matcher), `FilesystemStore.NewExact` nevertheless returns the SECOND
candidate's id and payload — the loop has no break, so iteration continues
past the accepted candidate and overwrites its values, contradicting the
claim and the function's own doc comment. -/
theorem filesystemStore_newExact_overruns_match :
    FilesystemStore.NewExact fsStore fsFiles fsReq "n" matchA
      = ({ ID := "B", Values := some [("data", "beta")], Options := fsStore.Options, IsNew := false, name := "n" }, none)
    ∧ matchA { ID := "A", Values := some [("data", "alpha")], Options := fsStore.Options, IsNew := true, name := "n" } = true := by
  exact ⟨by decide, by decide⟩

/-- A previously persisted session marked for deletion: MaxAge 0. -/
def delSession : Session :=
  { ID := "X", Values := some [],
    Options := { Path := "/", Domain := "", MaxAge := 0, Secure := false,
                 HttpOnly := false, SameSite := 0 },
    IsNew := false, name := "n" }

/-- C4 counterexample: for a MaxAge-zero session whose backing file does not
exist, `FilesystemStore.Save` fails in `erase` (os.Remove on a missing
file) and returns that error WITHOUT emitting any Set-Cookie header, so the
claim's unconditional "deletes the file and emits an expiring cookie" is
false. -/
theorem fs_save_delete_missing_file_counterexample :
    delSession.Options.MaxAge ≤ 0
    ∧ (FilesystemStore.Save fsStore [] [] delSession (List.replicate 32 0)).2.1 = []
    ∧ (FilesystemStore.Save fsStore [] [] delSession (List.replicate 32 0)).2.2
        = some "remove /tmp/session_X: no such file or directory" := by
  exact ⟨by decide, by decide, by decide⟩

/-- Helper: a key filtered out of an association list can no longer be
looked up. -/
theorem lookup_filter_ne (l : List (String × String)) (k : String) :
    (l.filter (fun p => p.1 ≠ k)).lookup k = none := by
  induction l with
  | nil => rfl
  | cons p rest ih =>
    simp only [List.filter_cons]
    by_cases hp : p.1 = k
    · rw [if_neg (by simp [hp])]
      exact ih
    · rw [if_pos (by simp [hp])]
      have hb : (k == p.1) = false := by simp [Ne.symm hp]
      simp only [List.lookup, hb]
      exact ih

/-- C4 (amended): for every session with MaxAge at most zero WHOSE BACKING
FILE EXISTS, `FilesystemStore.Save` removes `path/session_<id>` from disk —
the file is no longer found afterwards — writes no file, and emits exactly
one Set-Cookie header with an empty value that expires immediately (its
MaxAge is at most zero); when the backing file is absent the erase error is
returned instead with no cookie emitted. -/
theorem fs_save_delete_removes_file (s : FilesystemStore) (fsSt : FS) (w : List CookieRec)
    (session : Session) (randKey : List Nat)
    (hage : session.Options.MaxAge ≤ 0)
    (hex : (fsSt.lookup (sessionFilename s.path session.ID)).isSome = true) :
    FilesystemStore.Save s fsSt w session randKey
      = (fsSt.filter (fun p => p.1 ≠ sessionFilename s.path session.ID),
         w ++ [NewCookie session.name "" session.Options], none)
    ∧ (fsSt.filter (fun p => p.1 ≠ sessionFilename s.path session.ID)).lookup
        (sessionFilename s.path session.ID) = none
    ∧ (NewCookie session.name "" session.Options).value = ""
    ∧ (NewCookie session.name "" session.Options).MaxAge ≤ 0 := by
  refine ⟨?_, lookup_filter_ne fsSt (sessionFilename s.path session.ID), rfl, hage⟩
  unfold FilesystemStore.Save FilesystemStore.erase removeFile
  rw [if_pos hage, if_pos hex]
  rfl

/-- Witness for C4: the file exists and Save deletes it and emits the
expiring empty cookie. -/
theorem fs_save_delete_removes_file_witness :
    delSession.Options.MaxAge ≤ 0
    ∧ (([("/tmp/session_X", "old")] : FS).lookup
        (sessionFilename fsStore.path delSession.ID)).isSome = true
    ∧ FilesystemStore.Save fsStore [("/tmp/session_X", "old")] [] delSession
        (List.replicate 32 0)
      = (([("/tmp/session_X", "old")] : FS).filter
           (fun p => p.1 ≠ sessionFilename fsStore.path delSession.ID),
         [] ++ [NewCookie delSession.name "" delSession.Options], none) :=
  ⟨by decide, by decide,
   (fs_save_delete_removes_file fsStore [("/tmp/session_X", "old")] [] delSession
     (List.replicate 32 0) (by decide) (by decide)).1⟩

/-- C7: for a session with positive MaxAge, `FilesystemStore.Save`
generates a missing id as the base-32 (RFC 4648 alphabet, no padding)
rendering of the 32 random bytes, writes the codec-encoded values whole to
`path/session_<id>`, and puts only the encoded id — not the values
payload — into the emitted cookie; a session whose id is already non-empty
keeps that id. -/
theorem fs_save_id_generation :
    (∀ (s : FilesystemStore) (fsSt : FS) (w : List CookieRec) (session : Session)
       (randKey : List Nat) (ev ei : String),
       0 < session.Options.MaxAge → session.ID = "" → randKey.length = 32 →
       s.Codecs.encodeVals session.name session.Values = Except.ok ev →
       s.Codecs.encodeID session.name (base32RawStdEncoding randKey) = Except.ok ei →
       FilesystemStore.Save s fsSt w session randKey
         = (writeFile fsSt (sessionFilename s.path (base32RawStdEncoding randKey)) ev,
            w ++ [NewCookie session.name ei session.Options], none))
    ∧ (∀ (s : FilesystemStore) (fsSt : FS) (w : List CookieRec) (session : Session)
       (randKey : List Nat) (ev ei : String),
       0 < session.Options.MaxAge → session.ID ≠ "" →
       s.Codecs.encodeVals session.name session.Values = Except.ok ev →
       s.Codecs.encodeID session.name session.ID = Except.ok ei →
       FilesystemStore.Save s fsSt w session randKey
         = (writeFile fsSt (sessionFilename s.path session.ID) ev,
            w ++ [NewCookie session.name ei session.Options], none)) := by
  constructor
  · intro s fsSt w session randKey ev ei hage hid _hlen hev hei
    unfold FilesystemStore.Save
    rw [if_neg (by omega), if_pos hid]
    unfold FilesystemStore.savePersist FilesystemStore.save
    simp [hev, hei, setCookie]
  · intro s fsSt w session randKey ev ei hage hid hev hei
    unfold FilesystemStore.Save
    rw [if_neg (by omega), if_neg hid]
    unfold FilesystemStore.savePersist FilesystemStore.save
    simp [hev, hei, setCookie]

/-- A fresh session with no id yet, positive MaxAge. -/
def emptyIdSession : Session :=
  { ID := "", Values := some [],
    Options := { Path := "/", Domain := "", MaxAge := 3600, Secure := false,
                 HttpOnly := false, SameSite := 0 },
    IsNew := true, name := "n" }

/-- A previously persisted session keeping its id "K", positive MaxAge. -/
def keepIdSession : Session :=
  { emptyIdSession with ID := "K", IsNew := false }

/-- Witness for C7: both the id-generation and the id-keeping branch at
concrete inputs. -/
theorem fs_save_id_generation_witness :
    (0 : Int) < emptyIdSession.Options.MaxAge
    ∧ emptyIdSession.ID = ""
    ∧ (List.replicate 32 0).length = 32
    ∧ FilesystemStore.Save fsStore [] [] emptyIdSession (List.replicate 32 0)
        = (writeFile [] (sessionFilename fsStore.path
             (base32RawStdEncoding (List.replicate 32 0))) "payload",
           [NewCookie "n" (base32RawStdEncoding (List.replicate 32 0))
             emptyIdSession.Options], none)
    ∧ keepIdSession.ID ≠ ""
    ∧ FilesystemStore.Save fsStore [] [] keepIdSession (List.replicate 32 0)
        = (writeFile [] (sessionFilename fsStore.path "K") "payload",
           [NewCookie "n" "K" keepIdSession.Options], none) :=
  ⟨by decide, rfl, by decide,
   fs_save_id_generation.1 fsStore [] [] emptyIdSession (List.replicate 32 0)
     "payload" (base32RawStdEncoding (List.replicate 32 0))
     (by decide) rfl (by decide) rfl rfl,
   by decide,
   fs_save_id_generation.2 fsStore [] [] keepIdSession (List.replicate 32 0)
     "payload" "K" (by decide) (by decide) rfl rfl⟩

/-- A codec whose values encoder always fails. -/
def failValsCodec : CodecModel :=
  { encodeVals := fun _ _ => Except.error "securecookie: error - caused by values",
    decodeVals := fun _ _ => Except.ok [],
    encodeID := fun _ i => Except.ok i,
    decodeID := fun _ v => Except.ok v }

/-- A codec whose id encoder always fails but whose values encoder
succeeds. -/
def failIdCodec : CodecModel :=
  { encodeVals := fun _ _ => Except.ok "payload",
    decodeVals := fun _ _ => Except.ok [],
    encodeID := fun _ _ => Except.error "securecookie: error - caused by id",
    decodeID := fun _ v => Except.ok v }

/-- C9: when the values (or, on the filesystem store, the id) fail to
encode at Save time, Save returns the encode error and appends no
Set-Cookie header; the file system is untouched when the values encoding
failed, and holds exactly the whole encoded-values file when only the id
encoding failed afterwards — never a partial write. -/
theorem save_encode_failure_no_cookie :
    (∀ (s : CookieStore) (w : List CookieRec) (session : Session) (e : String),
       s.Codecs.encodeVals session.name session.Values = Except.error e →
       CookieStore.Save s w session = (w, some e))
    ∧ (∀ (s : FilesystemStore) (fsSt : FS) (w : List CookieRec) (session : Session)
       (randKey : List Nat) (e : String),
       0 < session.Options.MaxAge →
       s.Codecs.encodeVals session.name session.Values = Except.error e →
       FilesystemStore.Save s fsSt w session randKey = (fsSt, w, some e))
    ∧ (∀ (s : FilesystemStore) (fsSt : FS) (w : List CookieRec) (session : Session)
       (randKey : List Nat) (ev e : String),
       0 < session.Options.MaxAge →
       s.Codecs.encodeVals session.name session.Values = Except.ok ev →
       s.Codecs.encodeID session.name
           (if session.ID = "" then base32RawStdEncoding randKey else session.ID)
         = Except.error e →
       FilesystemStore.Save s fsSt w session randKey
         = (writeFile fsSt (sessionFilename s.path
              (if session.ID = "" then base32RawStdEncoding randKey else session.ID)) ev,
            w, some e)) := by
  refine ⟨?_, ?_, ?_⟩
  · intro s w session e he
    unfold CookieStore.Save
    rw [he]
  · intro s fsSt w session randKey e hage hev
    unfold FilesystemStore.Save
    rw [if_neg (by omega)]
    unfold FilesystemStore.savePersist FilesystemStore.save
    by_cases hid : session.ID = "" <;> simp [hid, hev]
  · intro s fsSt w session randKey ev e hage hev hei
    unfold FilesystemStore.Save
    rw [if_neg (by omega)]
    unfold FilesystemStore.savePersist FilesystemStore.save
    by_cases hid : session.ID = ""
    · rw [if_pos hid] at hei
      simp [hid, hev, hei]
    · rw [if_neg hid] at hei
      simp [hid, hev, hei]

/-- Witness for C9: all three encode-failure shapes at concrete inputs. -/
theorem save_encode_failure_no_cookie_witness :
    (NewCookieStore failValsCodec).Codecs.encodeVals keepIdSession.name keepIdSession.Values
        = Except.error "securecookie: error - caused by values"
    ∧ CookieStore.Save (NewCookieStore failValsCodec) [] keepIdSession
        = ([], some "securecookie: error - caused by values")
    ∧ (0 : Int) < keepIdSession.Options.MaxAge
    ∧ FilesystemStore.Save (NewFilesystemStore "/tmp" failValsCodec) [] [] keepIdSession
        (List.replicate 32 0)
      = ([], [], some "securecookie: error - caused by values")
    ∧ FilesystemStore.Save (NewFilesystemStore "/tmp" failIdCodec) [] [] keepIdSession
        (List.replicate 32 0)
      = (writeFile [] (sessionFilename (NewFilesystemStore "/tmp" failIdCodec).path
           (if keepIdSession.ID = "" then base32RawStdEncoding (List.replicate 32 0)
            else keepIdSession.ID)) "payload",
         [], some "securecookie: error - caused by id") :=
  ⟨rfl,
   save_encode_failure_no_cookie.1 (NewCookieStore failValsCodec) [] keepIdSession
     "securecookie: error - caused by values" rfl,
   by decide,
   save_encode_failure_no_cookie.2.1 (NewFilesystemStore "/tmp" failValsCodec) [] []
     keepIdSession (List.replicate 32 0) "securecookie: error - caused by values"
     (by decide) rfl,
   save_encode_failure_no_cookie.2.2 (NewFilesystemStore "/tmp" failIdCodec) [] []
     keepIdSession (List.replicate 32 0) "payload" "securecookie: error - caused by id"
     (by decide) rfl rfl⟩

/-- C8 counterexample: the claim's "Get/New fail" does not hold of
store-level New, which contains no name validation (store.go lines 120-134
and 264-300): for the name "session:key" — which does carry a character
outside the permitted token set — both CookieStore.New and
FilesystemStore.New return a fresh session with a NIL error instead of
failing with a descriptive one. -/
theorem store_new_accepts_invalid_name :
    (∃ c, c ∈ "session:key".data ∧ isTokenChar c = false)
    ∧ CookieStore.New testStore wReq "session:key"
        = (freshSessionWith testStore.Options "session:key", none)
    ∧ FilesystemStore.New fsStore [] wReq "session:key"
        = (freshSessionWith fsStore.Options "session:key", none) :=
  ⟨⟨Char.ofNat 58, by decide, by decide⟩, by decide, by decide⟩
